import Mathlib

/-!
Shallow embedding of the `minipkg/log` package (`src/logger.go`) together
with theorems settling the frozen claims about its specification.

The embedding models:
  * Go `interface{}` values that can appear as logging arguments (`GoValue`),
    including `zap.String` field values and slices;
  * `fmt.Sprint`-style message construction (`fmtSprint`), which inserts a
    space between two adjacent operands exactly when neither is a string,
    and renders a slice operand in brackets with space-separated elements;
  * `context.Context` as an immutable chain of key/value layers, with
    `Value` returning the most recently added binding for a key;
  * the package-private `contextKey` type with its two constants;
  * the `logger` struct (embedded sugared logger carrying permanent
    structured fields, plus a raw engine handle `zapLogger`), its `With`
    decoration, its level-tagged log-entry construction, and the
    `Print`/`Printf` slip of passing the variadic slice as a single value;
  * `WithRequest` header extraction, with the external random UUID
    generator modelled from the spec as a function of an entropy byte list;
  * the configuration translation (`configToZapConfig`, `New`), with Go
    maps modelled through an explicit heap of field maps so that copying
    versus aliasing is observable.
-/

namespace MinipkgLog

/-- Go `interface{}` values that occur as logging arguments: plain strings,
integers, `zap.String` fields (a field name paired with a string value),
and slices of values. -/
inductive GoValue where
  | str (s : String)
  | int (n : Int)
  | field (name : String) (value : String)
  | slice (vs : List GoValue)

/-- Whether a Go value's dynamic type is `string` (as tested by the
`.(string)` type assertion in `With`). -/
def GoValue.isStr : GoValue → Bool
  | .str _ => true
  | _ => false

/-- Result of the Go type assertion `v.(string)`: the string when the
dynamic type is `string`, otherwise `none` (assertion fails, `ok=false`). -/
def GoValue.asString : GoValue → Option String
  | .str s => some s
  | _ => none

mutual

/-- Rendering of a single `fmt` operand (the `%v` form used by
`fmt.Sprint`): strings verbatim, integers in decimal, slices in brackets
with space-separated elements.  The rendering of a `zap.Field` struct is
abbreviated (no claim depends on it). -/
def GoValue.fmtElem : GoValue → String
  | .str s => s
  | .int n => toString n
  | .field n v => "\x7b" ++ n ++ " " ++ v ++ "\x7d"
  | .slice vs => "[" ++ fmtSliceElems vs ++ "]"

/-- Space-separated rendering of the elements of a slice operand, as
`fmt` prints Go slices. -/
def fmtSliceElems : List GoValue → String
  | [] => ""
  | [v] => v.fmtElem
  | v :: w :: rest => v.fmtElem ++ " " ++ fmtSliceElems (w :: rest)

end

/-- Model of `fmt.Sprint(args...)`: operands are concatenated, and a space
is added between two adjacent operands exactly when neither is a string. -/
def fmtSprint : List GoValue → String
  | [] => ""
  | [v] => v.fmtElem
  | v :: w :: rest =>
      v.fmtElem ++ (if v.isStr || w.isStr then "" else " ") ++ fmtSprint (w :: rest)

/-- Universe of context keys: values of the package-private `contextKey`
integer type, plus string and integer keys used by unrelated collaborators.
Distinct constructors model Go's dynamic-type component of interface
equality, so a `contextKey(0)` never equals the plain integer `0` or the
string key carrying the same text. -/
inductive CtxKey where
  | ck (n : Nat)
  | strK (s : String)
  | intK (n : Int)
deriving DecidableEq

/-- The package-private request-ID key (`requestIDKey contextKey = iota`). -/
def requestIDKey : CtxKey := .ck 0

/-- The package-private correlation-ID key (`correlationIDKey`). -/
def correlationIDKey : CtxKey := .ck 1

/-- A non-nil `context.Context`: an immutable chain of key/value layers,
most recent first.  `context.WithValue` adds a layer; lookup walks the
chain from the most recent layer. -/
abbrev Context := List (CtxKey × GoValue)

/-- Model of `ctx.Value(k)`: the value of the most recently added layer
whose key equals `k`, or `none` when no layer matches. -/
def Context.value : Context → CtxKey → Option GoValue
  | [], _ => none
  | (k', v) :: rest, k => if k' = k then some v else Context.value rest k

/-- Model of `context.WithValue(ctx, k, v)`: a new derived context with one
more layer; the original chain is shared, never modified. -/
def Context.withValue (c : Context) (k : CtxKey) (v : GoValue) : Context :=
  (k, v) :: c

/-- The `*zap.SugaredLogger` component of the logger: the permanent
structured fields it carries (its `With` appends to them). -/
structure SugaredLogger where
  fields : List GoValue

/-- Model of `zap.SugaredLogger.With(args...)`: a sugared logger carrying
the old fields followed by the new arguments. -/
def SugaredLogger.With (s : SugaredLogger) (args : List GoValue) : SugaredLogger :=
  ⟨s.fields ++ args⟩

/-- The `logger` struct from the source: an embedded sugared logger and a
reference to the raw engine (`zapLogger`), modelled as a handle so that
reference identity is observable. -/
structure logger where
  sugared : SugaredLogger
  zapLogger : Nat

/-- Model of `NewWithZap`: wraps a raw engine handle, with `Sugar()`
starting from an empty permanent-field list. -/
def NewWithZap (zl : Nat) : logger :=
  { sugared := ⟨[]⟩, zapLogger := zl }

/-- Log levels of the underlying engine (`zapcore.Level`). -/
inductive Level where
  | debugLevel
  | infoLevel
  | warnLevel
  | errorLevel
  | dpanicLevel
  | panicLevel
  | fatalLevel
deriving DecidableEq

/-- An emitted log record: level, message, and the permanent structured
fields the emitting logger carries. -/
structure Entry where
  level : Level
  message : String
  fields : List GoValue

/-- The record a logger emits for a given level and message: it always
carries the logger's accumulated permanent fields. -/
def logger.logEntry (l : logger) (lv : Level) (msg : String) : Entry :=
  ⟨lv, msg, l.sugared.fields⟩

/-- Model of `Debug(args...)`: a debug-level record whose message is the
`fmt.Sprint` of the arguments. -/
def logger.DebugE (l : logger) (args : List GoValue) : Entry :=
  l.logEntry .debugLevel (fmtSprint args)

/-- Model of `Info(args...)`. -/
def logger.InfoE (l : logger) (args : List GoValue) : Entry :=
  l.logEntry .infoLevel (fmtSprint args)

/-- Model of `Error(args...)`. -/
def logger.ErrorE (l : logger) (args : List GoValue) : Entry :=
  l.logEntry .errorLevel (fmtSprint args)

/-- Model of the source's `Print(v ...interface{}) { l.Debug(v) }`: the
variadic slice `v` is passed to `Debug` as a single slice-typed argument,
not spread into individual arguments. -/
def logger.PrintE (l : logger) (v : List GoValue) : Entry :=
  l.DebugE [GoValue.slice v]

/-- Model of `(l *logger) With(ctx, args...)` from the source: when the
context is non-nil, a string-typed request-ID value and then a
string-typed correlation-ID value are appended to the argument list as
`zap.String` fields; when the resulting list is non-empty a new logger is
built on the augmented sugared logger with the same raw engine handle,
otherwise the original logger is returned. -/
def logger.With (l : logger) (ctx : Option Context) (args : List GoValue) : logger :=
  let args :=
    match ctx with
    | none => args
    | some c =>
      let args1 :=
        match (c.value requestIDKey).bind GoValue.asString with
        | some id => args ++ [GoValue.field "RequestID" id]
        | none => args
      match (c.value correlationIDKey).bind GoValue.asString with
      | some id => args1 ++ [GoValue.field "CorrelationID" id]
      | none => args1
  if 0 < args.length then
    { sugared := l.sugared.With args, zapLogger := l.zapLogger }
  else l

/-- The string-typed value found in an optional context under a key, if
any: `none` both for a nil context, an absent key, and a value of
non-string dynamic type. -/
def ctxStringValue (ctx : Option Context) (k : CtxKey) : Option String :=
  ctx.bind fun c => (c.value k).bind GoValue.asString

/-- Hexadecimal digit characters, lowercase, as used by the canonical UUID
string encoding. -/
def hexDigit : Nat → Char
  | 0 => '0'
  | 1 => '1'
  | 2 => '2'
  | 3 => '3'
  | 4 => '4'
  | 5 => '5'
  | 6 => '6'
  | 7 => '7'
  | 8 => '8'
  | 9 => '9'
  | 10 => 'a'
  | 11 => 'b'
  | 12 => 'c'
  | 13 => 'd'
  | 14 => 'e'
  | 15 => 'f'
  | _ => '0'

/-- Two-character lowercase hex encoding of one byte. -/
def byteHexChars (b : Nat) : List Char :=
  [hexDigit (b / 16 % 16), hexDigit (b % 16)]

/-- Lowercase hex encoding of a byte sequence. -/
def hexOfBytes (bs : List Nat) : List Char :=
  bs.foldr (fun b acc => byteHexChars b ++ acc) []

/-- Modelled from the spec: the canonical RFC 4122 string form used by the
external UUID library (`github.com/google/uuid`, not part of `src/`) —
hex of bytes 0-3, 4-5, 6-7, 8-9 and 10-15 joined by hyphens. -/
def uuidChars (bs : List Nat) : List Char :=
  hexOfBytes (bs.take 4) ++ ['-'] ++ hexOfBytes ((bs.drop 4).take 2) ++ ['-'] ++
    hexOfBytes ((bs.drop 6).take 2) ++ ['-'] ++ hexOfBytes ((bs.drop 8).take 2) ++ ['-'] ++
    hexOfBytes (bs.drop 10)

/-- The canonical UUID string of a 16-byte value. -/
def uuidString (bs : List Nat) : String :=
  String.mk (uuidChars bs)

/-- Modelled from the spec: `uuid.New()` of the external UUID library (not
part of `src/`) — a version-4 UUID built from 16 random bytes, with byte 6
forced to version 4 (`(b & 0x0f) | 0x40`) and byte 8 forced to the RFC 4122
variant (`(b & 0x3f) | 0x80`).  The random source is modelled as an
explicit entropy byte list, truncated/padded to 16 bytes. -/
def uuidV4 (entropy : List Nat) : List Nat :=
  let bs := ((entropy ++ List.replicate 16 0).take 16).map (fun b => b % 256)
  let bs := bs.set 6 (bs.getD 6 0 % 16 + 64)
  bs.set 8 (bs.getD 8 0 % 64 + 128)

/-- Whether a character is a lowercase hex digit. -/
def isHexChar (c : Char) : Bool :=
  ("0123456789abcdef".data).contains c

/-- Specification predicate, following the spec's words: a string is in
canonical UUID-v4 form when it has 36 characters, hyphens at positions
8, 13, 18 and 23, only hex digits and hyphens, the version digit `4` at
position 14, and a variant digit in `8`/`9`/`a`/`b` at position 19. -/
def isCanonicalUUIDv4 (s : String) : Bool :=
  let cs := s.data
  (cs.length == 36) && (cs.getD 8 ' ' == '-') && (cs.getD 13 ' ' == '-') &&
    (cs.getD 18 ' ' == '-') && (cs.getD 23 ' ' == '-') &&
    cs.all (fun c => (c == '-') || isHexChar c) &&
    (cs.getD 14 ' ' == '4') && (['8', '9', 'a', 'b'].contains (cs.getD 19 ' '))

/-- An HTTP header collection: canonical key to list of values, as in Go's
`http.Header` map. -/
structure Header where
  entries : List (String × List String)

/-- Model of `http.Header.Get`: the first value stored under the key, or
the empty string when the key is absent or has no values. -/
def Header.get (h : Header) (k : String) : String :=
  match h.entries.lookup k with
  | some (v :: _) => v
  | _ => ""

/-- An inbound HTTP request, reduced to the part the source reads. -/
structure Request where
  header : Header

/-- Model of `getRequestID`: reads the `X-Request-ID` header. -/
def getRequestID (req : Request) : String :=
  req.header.get "X-Request-ID"

/-- Model of `getCorrelationID`: reads the `X-Correlation-ID` header. -/
def getCorrelationID (req : Request) : String :=
  req.header.get "X-Correlation-ID"

/-- Model of `WithRequest(ctx, req)` from the source: adopt the
`X-Request-ID` header value, or a fresh version-4 UUID string when the
header is empty; store it under the request-ID key unconditionally; then
store the `X-Correlation-ID` header value under the correlation-ID key
only when it is non-empty.  The external random generator is passed in as
the entropy byte list consumed by `uuidV4`. -/
def WithRequest (entropy : List Nat) (ctx : Context) (req : Request) : Context :=
  let id := getRequestID req
  let id := if id = "" then uuidString (uuidV4 entropy) else id
  let ctx := ctx.withValue requestIDKey (GoValue.str id)
  let cid := getCorrelationID req
  if cid ≠ "" then ctx.withValue correlationIDKey (GoValue.str cid) else ctx

/-- A Go map from field names to values, as an association list (later
insertions shadow earlier ones for lookup purposes). -/
abbrev FieldMap := List (String × GoValue)

/-- A heap of field maps: Go maps are reference values, so aliasing versus
copying is observable only through an explicit store.  A map reference is
an index into this heap. -/
abbrev Heap := List FieldMap

/-- The map currently stored under a reference (empty for a dangling or
nil reference). -/
def Heap.getMap (h : Heap) (r : Nat) : FieldMap :=
  h.getD r []

/-- In-place insertion `m[key] = val` on the map behind reference `r`:
mutates the heap cell, leaving every other reference untouched. -/
def Heap.mapInsert (h : Heap) (r : Nat) (k : String) (v : GoValue) : Heap :=
  h.set r ((k, v) :: h.getD r [])

/-- The `Config` struct from the source.  `InitialFields` is a reference
to a field map living in the modelled heap. -/
structure Config where
  Encoding : String
  OutputPaths : List String
  Level : String
  InitialFields : Nat

/-- The `zapcore.EncoderConfig` fields set by the source's baseline
configuration.  Encoder functions are modelled by name; `none` models a
nil function value. -/
structure EncoderConfig where
  MessageKey : String
  LevelKey : String
  TimeKey : String
  NameKey : String
  CallerKey : String
  StacktraceKey : String
  LineEnding : String
  EncodeLevel : Option String
  EncodeTime : Option String
  EncodeDuration : Option String
  EncodeCaller : Option String
  EncodeName : Option String
deriving DecidableEq

/-- The engine-native `zap.Config`, reduced to the components the source
touches.  `InitialFields` is `none` for the zero (nil-map) value and a
heap reference once populated; the zero value of the level is info. -/
structure ZapConfig where
  Encoding : String
  encoderConfig : EncoderConfig
  OutputPaths : List String
  Level : Level
  InitialFields : Option Nat
deriving DecidableEq

/-- The source's `defaultZapConfig` baseline value: JSON encoding with the
canonical record keys, lowercase levels, ISO-8601 timestamps, full caller
paths, no stack traces, no line-ending override. -/
def defaultZapConfig : ZapConfig :=
  { Encoding := "json"
    encoderConfig :=
      { MessageKey := "message"
        LevelKey := "level"
        TimeKey := "time"
        NameKey := "logger"
        CallerKey := "caller"
        StacktraceKey := ""
        LineEnding := ""
        EncodeLevel := some "LowercaseLevelEncoder"
        EncodeTime := some "ISO8601TimeEncoder"
        EncodeDuration := none
        EncodeCaller := some "FullCallerEncoder"
        EncodeName := none }
    OutputPaths := []
    Level := .infoLevel
    InitialFields := none }

/-- Go's `%q` rendering of a plain string (no escaping needed for the
strings the claims exercise). -/
def goQuote (s : String) : String :=
  "\"" ++ s ++ "\""

/-- Modelled from the spec: the token set recognised by the external
engine's level parser (`zapcore.Level.UnmarshalText`, not part of `src/`);
the empty string parses as info (the zero value made useful). -/
def levelOfToken : String → Option Level
  | "debug" | "DEBUG" => some .debugLevel
  | "info" | "INFO" | "" => some .infoLevel
  | "warn" | "WARN" => some .warnLevel
  | "error" | "ERROR" => some .errorLevel
  | "dpanic" | "DPANIC" => some .dpanicLevel
  | "panic" | "PANIC" => some .panicLevel
  | "fatal" | "FATAL" => some .fatalLevel
  | _ => none

/-- Character-wise ASCII lowercasing of a string (the effect of
`bytes.ToLower` on the level tokens involved). -/
def strToLower (s : String) : String :=
  String.mk (s.data.map Char.toLower)

/-- Modelled from the spec: the external engine's level text parsing —
the token is tried verbatim and lowercased, and an unrecognised token
yields an error naming the offending input. -/
def unmarshalLevel (text : String) : Except String Level :=
  match levelOfToken text with
  | some lv => .ok lv
  | none =>
    match levelOfToken (strToLower text) with
    | some lv => .ok lv
    | none => .error ("unrecognized level: " ++ goQuote text)

/-- Abbreviated `%v` rendering of a `Config` value for error messages (the
`InitialFields` part is abbreviated because maps live in the modelled
heap; the claims only use that the rendering embeds the level string). -/
def confFmt (conf : Config) : String :=
  "\x7b" ++ conf.Encoding ++ " [" ++ String.intercalate " " conf.OutputPaths ++ "] " ++
    conf.Level ++ " map[]\x7d"

/-- Abbreviated `%#v` rendering of a `ZapConfig` value for error
messages. -/
def zapConfFmt (cfg : ZapConfig) : String :=
  "zap.Config\x7bEncoding:" ++ goQuote cfg.Encoding ++ "\x7d"

/-- Model of `configToZapConfig` from the source: copy the baseline value,
overlay the caller's output paths and encoding, copy the caller's initial
fields entry by entry into a freshly allocated map, then parse the level
string, wrapping a parse failure in the source's "Can not unmarshal text"
message. -/
def configToZapConfig (h : Heap) (conf : Config) : Heap × Except String ZapConfig :=
  let cfg := defaultZapConfig
  let cfg := { cfg with OutputPaths := conf.OutputPaths, Encoding := conf.Encoding }
  let copied := h.getMap conf.InitialFields
  let newRef := h.length
  let h := h ++ [copied]
  let cfg := { cfg with InitialFields := some newRef }
  match unmarshalLevel conf.Level with
  | .error e =>
      (h, .error ("Can not unmarshal text " ++ goQuote conf.Level ++
        ", expected one of zapcore.Levels: " ++ e))
  | .ok lv => (h, .ok { cfg with Level := lv })

/-- Model of `New` from the source: translate the configuration (wrapping
a failure with the "Can not convert conf to zap conf" message), build the
engine from the translated configuration (wrapping a failure with the
"Can not build loger by cfg" message — the source's spelling), and wrap
the built engine.  The engine builder is passed in as a function returning
either an error or a raw engine handle; the success-path `Info` call has
no bearing on any claim and is not modelled. -/
def New (h : Heap) (build : ZapConfig → Except String Nat) (conf : Config) :
    Heap × Except String logger :=
  match configToZapConfig h conf with
  | (h', .error e) =>
      (h', .error ("Can not convert conf to zap conf;\nconf: " ++ confFmt conf ++ ": " ++ e))
  | (h', .ok cfg) =>
    match build cfg with
    | .error e =>
        (h', .error ("Can not build loger by cfg: " ++ zapConfFmt cfg ++ ": " ++ e))
    | .ok zl => (h', .ok (NewWithZap zl))

/-- Whether the first character list is an initial segment of the
second. -/
def charsStart : List Char → List Char → Bool
  | [], _ => true
  | _ :: _, [] => false
  | a :: as, b :: bs => a == b && charsStart as bs

/-- Whether the first character list occurs contiguously inside the
second. -/
def charsContain (sub : List Char) : List Char → Bool
  | [] => charsStart sub []
  | a :: rest => charsStart sub (a :: rest) || charsContain sub rest

/-- Whether `sub` occurs as a contiguous substring of `s`. -/
def strContains (s sub : String) : Bool :=
  charsContain sub.data s.data

/-- Whether `p` is a prefix of `s`. -/
def strStartsWith (s p : String) : Bool :=
  charsStart p.data s.data

/-- A root logger wrapping engine handle 0, used to evaluate the logging
methods at concrete inputs. -/
def rootLogger : logger := NewWithZap 0

/-- Decoration either returns the original logger or a logger extending
the original's permanent fields over the same engine handle. -/
theorem With_shape (l : logger) (ctx : Option Context) (args : List GoValue) :
    l.With ctx args = l ∨
      ∃ extra, l.With ctx args =
        { sugared := ⟨l.sugared.fields ++ extra⟩, zapLogger := l.zapLogger } := by
  simp only [logger.With]
  split
  · right
    exact ⟨_, rfl⟩
  · left
    rfl

/-- C6: when no caller arguments are given and the context (possibly nil)
yields no string-typed request-ID or correlation-ID value, `With` returns
the original logger instance itself. -/
theorem With_empty_args_identity (l : logger) (ctx : Option Context)
    (hr : ctxStringValue ctx requestIDKey = none)
    (hc : ctxStringValue ctx correlationIDKey = none) :
    l.With ctx [] = l := by
  cases ctx with
  | none => simp [logger.With]
  | some c =>
    simp only [ctxStringValue, Option.some_bind] at hr hc
    simp [logger.With, hr, hc]

/-- Witness for C6 at a concrete logger and a concrete context that holds
only a wrong-typed value under the request-ID key. -/
theorem With_empty_args_identity_witness :
    ctxStringValue (some [(requestIDKey, GoValue.int 3)]) requestIDKey = none ∧
    ctxStringValue (some [(requestIDKey, GoValue.int 3)]) correlationIDKey = none ∧
    rootLogger.With (some [(requestIDKey, GoValue.int 3)]) [] = rootLogger :=
  ⟨rfl, rfl, With_empty_args_identity rootLogger _ rfl rfl⟩

/-- C7: decoration is a pure function of the original logger — in this
embedding `With` cannot mutate its receiver — and the logger it returns
keeps the same raw engine handle while its permanent fields extend the
original's field list. -/
theorem With_nonmutating_same_engine (l : logger) (ctx : Option Context)
    (args : List GoValue) :
    (l.With ctx args).zapLogger = l.zapLogger ∧
      ∃ t, (l.With ctx args).sugared.fields = l.sugared.fields ++ t := by
  rcases With_shape l ctx args with h | ⟨extra, h⟩
  · rw [h]
    exact ⟨rfl, [], by simp⟩
  · rw [h]
    exact ⟨rfl, extra, rfl⟩

/-- C8: a context whose request-ID and correlation-ID lookups produce no
string-typed value (wrong dynamic type, or values stored under other
keys) injects nothing: decoration behaves exactly as with no context, and
returns normally. -/
theorem With_ignores_non_string_values (l : logger) (c : Context)
    (args : List GoValue)
    (hr : (c.value requestIDKey).bind GoValue.asString = none)
    (hc : (c.value correlationIDKey).bind GoValue.asString = none) :
    l.With (some c) args = l.With none args := by
  simp [logger.With, hr, hc]

/-- Witness for C8: a context carrying a non-string value under the
request-ID key, a string under an unrelated integer key, and a string
under the plain string key `"RequestID"` injects nothing. -/
theorem With_ignores_non_string_values_witness :
    (Context.value [(requestIDKey, GoValue.int 7), (CtxKey.intK 0, GoValue.str "r"),
        (CtxKey.strK "RequestID", GoValue.str "r")] requestIDKey).bind GoValue.asString
      = none ∧
    (Context.value [(requestIDKey, GoValue.int 7), (CtxKey.intK 0, GoValue.str "r"),
        (CtxKey.strK "RequestID", GoValue.str "r")] correlationIDKey).bind GoValue.asString
      = none ∧
    rootLogger.With
        (some [(requestIDKey, GoValue.int 7), (CtxKey.intK 0, GoValue.str "r"),
          (CtxKey.strK "RequestID", GoValue.str "r")]) [GoValue.str "k", GoValue.str "v"]
      = rootLogger.With none [GoValue.str "k", GoValue.str "v"] :=
  ⟨rfl, rfl, With_ignores_non_string_values rootLogger _ _ rfl rfl⟩

/-- C1: decorating with a non-nil context injects a `RequestID` field when
the context yields a string-typed request-ID value and, independently, a
`CorrelationID` field when it yields a string-typed correlation-ID value;
the caller-supplied arguments are carried as well, and every record the
decorated logger emits (any level, any message) carries these fields. -/
theorem With_injects_context_ids (l : logger) (c : Context) (args : List GoValue)
    (lv : Level) (msg : String) :
    (∀ r, (c.value requestIDKey).bind GoValue.asString = some r →
        GoValue.field "RequestID" r ∈ ((l.With (some c) args).logEntry lv msg).fields) ∧
    (∀ s, (c.value correlationIDKey).bind GoValue.asString = some s →
        GoValue.field "CorrelationID" s ∈ ((l.With (some c) args).logEntry lv msg).fields) ∧
    (∀ a, a ∈ args → a ∈ ((l.With (some c) args).logEntry lv msg).fields) := by
  refine ⟨fun r hr => ?_, fun s hs => ?_, fun a ha => ?_⟩
  · rcases hc : (c.value correlationIDKey).bind GoValue.asString with _ | s <;>
      simp [logger.With, logger.logEntry, SugaredLogger.With, hr, hc]
  · rcases hr : (c.value requestIDKey).bind GoValue.asString with _ | r <;>
      simp [logger.With, logger.logEntry, SugaredLogger.With, hr, hs]
  · have hpos : 0 < args.length := List.length_pos.mpr (by rintro rfl; simp at ha)
    rcases hr : (c.value requestIDKey).bind GoValue.asString with _ | r <;>
      rcases hc : (c.value correlationIDKey).bind GoValue.asString with _ | s <;>
      simp [logger.With, logger.logEntry, SugaredLogger.With, hr, hc, hpos, ha]

/-- Witness for C1 at a concrete logger, context and argument list. -/
theorem With_injects_context_ids_witness :
    (Context.value [(requestIDKey, GoValue.str "r1"), (correlationIDKey, GoValue.str "c1")]
        requestIDKey).bind GoValue.asString = some "r1" ∧
    GoValue.field "RequestID" "r1" ∈
      ((rootLogger.With
          (some [(requestIDKey, GoValue.str "r1"), (correlationIDKey, GoValue.str "c1")])
          [GoValue.str "k", GoValue.str "v"]).logEntry Level.infoLevel "m").fields ∧
    GoValue.field "CorrelationID" "c1" ∈
      ((rootLogger.With
          (some [(requestIDKey, GoValue.str "r1"), (correlationIDKey, GoValue.str "c1")])
          [GoValue.str "k", GoValue.str "v"]).logEntry Level.infoLevel "m").fields ∧
    GoValue.str "k" ∈
      ((rootLogger.With
          (some [(requestIDKey, GoValue.str "r1"), (correlationIDKey, GoValue.str "c1")])
          [GoValue.str "k", GoValue.str "v"]).logEntry Level.infoLevel "m").fields := by
  have h := With_injects_context_ids rootLogger
    [(requestIDKey, GoValue.str "r1"), (correlationIDKey, GoValue.str "c1")]
    [GoValue.str "k", GoValue.str "v"] Level.infoLevel "m"
  exact ⟨rfl, h.1 "r1" rfl, h.2.1 "c1" rfl, h.2.2 (GoValue.str "k") (by simp)⟩

/-- C10: when the context yields string-typed values for both IDs, the
decorated logger's field list is the original's fields, then all
caller-supplied arguments, then the `RequestID` pair, then the
`CorrelationID` pair — the injected fields come after the caller's and in
that fixed relative order. -/
theorem With_appends_ids_after_args (l : logger) (c : Context) (args : List GoValue)
    (r s : String)
    (hr : (c.value requestIDKey).bind GoValue.asString = some r)
    (hs : (c.value correlationIDKey).bind GoValue.asString = some s) :
    (l.With (some c) args).sugared.fields =
      l.sugared.fields ++ args ++
        [GoValue.field "RequestID" r, GoValue.field "CorrelationID" s] := by
  simp [logger.With, hr, hs, SugaredLogger.With]

/-- Witness for C10 at a concrete logger, context and argument list. -/
theorem With_appends_ids_after_args_witness :
    (Context.value [(correlationIDKey, GoValue.str "c1"), (requestIDKey, GoValue.str "r1")]
        requestIDKey).bind GoValue.asString = some "r1" ∧
    (rootLogger.With
        (some [(correlationIDKey, GoValue.str "c1"), (requestIDKey, GoValue.str "r1")])
        [GoValue.str "k", GoValue.str "v"]).sugared.fields =
      rootLogger.sugared.fields ++ [GoValue.str "k", GoValue.str "v"] ++
        [GoValue.field "RequestID" "r1", GoValue.field "CorrelationID" "c1"] :=
  ⟨rfl, With_appends_ids_after_args rootLogger _ _ "r1" "c1" rfl rfl⟩

/-- C4 (code bug): `Print("a", "b")` passes the variadic slice to `Debug`
as a single slice-typed operand (`l.Debug(v)`, not `l.Debug(v...)`), so
the emitted message is the bracketed slice rendering `"[a b]"` instead of
the `fmt.Sprint` of the individual values `"ab"`; the level is debug as
documented, but the message diverges from `Debug` on the same variadic
arguments. -/
theorem Print_wraps_args_in_slice :
    (rootLogger.PrintE [GoValue.str "a", GoValue.str "b"]).level = Level.debugLevel ∧
    (rootLogger.PrintE [GoValue.str "a", GoValue.str "b"]).message = "[a b]" ∧
    (rootLogger.DebugE [GoValue.str "a", GoValue.str "b"]).message = "ab" ∧
    (rootLogger.PrintE [GoValue.str "a", GoValue.str "b"]).message ≠
      (rootLogger.DebugE [GoValue.str "a", GoValue.str "b"]).message :=
  ⟨rfl, rfl, rfl, by decide⟩

/-- Every output of `hexDigit` passes the hyphen-or-hex character check. -/
theorem hexDigit_ok (n : Nat) : ((hexDigit n == '-') || isHexChar (hexDigit n)) = true :=
  match n with
  | 0 => by decide
  | 1 => by decide
  | 2 => by decide
  | 3 => by decide
  | 4 => by decide
  | 5 => by decide
  | 6 => by decide
  | 7 => by decide
  | 8 => by decide
  | 9 => by decide
  | 10 => by decide
  | 11 => by decide
  | 12 => by decide
  | 13 => by decide
  | 14 => by decide
  | 15 => by decide
  | n + 16 => by
    rw [show hexDigit (n + 16) = '0' from rfl]
    decide

/-- A list of naturals of length sixteen is a sixteen-element literal. -/
theorem exists_sixteen (L : List Nat) (h : L.length = 16) :
    ∃ a0 a1 a2 a3 a4 a5 a6 a7 a8 a9 a10 a11 a12 a13 a14 a15,
      L = [a0, a1, a2, a3, a4, a5, a6, a7, a8, a9, a10, a11, a12, a13, a14, a15] := by
  rcases L with _ | ⟨a0, L⟩; · simp at h
  rcases L with _ | ⟨a1, L⟩; · simp at h
  rcases L with _ | ⟨a2, L⟩; · simp at h
  rcases L with _ | ⟨a3, L⟩; · simp at h
  rcases L with _ | ⟨a4, L⟩; · simp at h
  rcases L with _ | ⟨a5, L⟩; · simp at h
  rcases L with _ | ⟨a6, L⟩; · simp at h
  rcases L with _ | ⟨a7, L⟩; · simp at h
  rcases L with _ | ⟨a8, L⟩; · simp at h
  rcases L with _ | ⟨a9, L⟩; · simp at h
  rcases L with _ | ⟨a10, L⟩; · simp at h
  rcases L with _ | ⟨a11, L⟩; · simp at h
  rcases L with _ | ⟨a12, L⟩; · simp at h
  rcases L with _ | ⟨a13, L⟩; · simp at h
  rcases L with _ | ⟨a14, L⟩; · simp at h
  rcases L with _ | ⟨a15, L⟩; · simp at h
  rcases L with _ | ⟨a16, L⟩
  · exact ⟨a0, a1, a2, a3, a4, a5, a6, a7, a8, a9, a10, a11, a12, a13, a14, a15, rfl⟩
  · simp at h

/-- The canonical rendering of sixteen bytes whose seventh byte has high
nibble 4 and whose ninth byte has high nibble 8, 9, 10 or 11 passes the
canonical-UUID-v4 check. -/
theorem canon_explicit (a0 a1 a2 a3 a4 a5 v a7 w a9 a10 a11 a12 a13 a14 a15 : Nat)
    (hv : v / 16 % 16 = 4)
    (hw : w / 16 % 16 = 8 ∨ w / 16 % 16 = 9 ∨ w / 16 % 16 = 10 ∨ w / 16 % 16 = 11) :
    isCanonicalUUIDv4
      (uuidString [a0, a1, a2, a3, a4, a5, v, a7, w, a9, a10, a11, a12, a13, a14, a15])
      = true := by
  have hcs :
      (uuidString [a0, a1, a2, a3, a4, a5, v, a7, w, a9, a10, a11, a12, a13, a14, a15]).data =
        [hexDigit (a0 / 16 % 16), hexDigit (a0 % 16), hexDigit (a1 / 16 % 16),
          hexDigit (a1 % 16), hexDigit (a2 / 16 % 16), hexDigit (a2 % 16),
          hexDigit (a3 / 16 % 16), hexDigit (a3 % 16), '-',
          hexDigit (a4 / 16 % 16), hexDigit (a4 % 16), hexDigit (a5 / 16 % 16),
          hexDigit (a5 % 16), '-',
          hexDigit (v / 16 % 16), hexDigit (v % 16), hexDigit (a7 / 16 % 16),
          hexDigit (a7 % 16), '-',
          hexDigit (w / 16 % 16), hexDigit (w % 16), hexDigit (a9 / 16 % 16),
          hexDigit (a9 % 16), '-',
          hexDigit (a10 / 16 % 16), hexDigit (a10 % 16), hexDigit (a11 / 16 % 16),
          hexDigit (a11 % 16), hexDigit (a12 / 16 % 16), hexDigit (a12 % 16),
          hexDigit (a13 / 16 % 16), hexDigit (a13 % 16), hexDigit (a14 / 16 % 16),
          hexDigit (a14 % 16), hexDigit (a15 / 16 % 16), hexDigit (a15 % 16)] := rfl
  simp only [isCanonicalUUIDv4]
  rw [hcs]
  simp only [Bool.and_eq_true]
  refine ⟨⟨⟨⟨⟨⟨⟨?_, ?_⟩, ?_⟩, ?_⟩, ?_⟩, ?_⟩, ?_⟩, ?_⟩
  · rfl
  · rfl
  · rfl
  · rfl
  · rfl
  · simp only [List.all_cons, List.all_nil, hexDigit_ok, Bool.true_and, Bool.and_true]
    decide
  · have h14 :
        ([hexDigit (a0 / 16 % 16), hexDigit (a0 % 16), hexDigit (a1 / 16 % 16),
          hexDigit (a1 % 16), hexDigit (a2 / 16 % 16), hexDigit (a2 % 16),
          hexDigit (a3 / 16 % 16), hexDigit (a3 % 16), '-',
          hexDigit (a4 / 16 % 16), hexDigit (a4 % 16), hexDigit (a5 / 16 % 16),
          hexDigit (a5 % 16), '-',
          hexDigit (v / 16 % 16), hexDigit (v % 16), hexDigit (a7 / 16 % 16),
          hexDigit (a7 % 16), '-',
          hexDigit (w / 16 % 16), hexDigit (w % 16), hexDigit (a9 / 16 % 16),
          hexDigit (a9 % 16), '-',
          hexDigit (a10 / 16 % 16), hexDigit (a10 % 16), hexDigit (a11 / 16 % 16),
          hexDigit (a11 % 16), hexDigit (a12 / 16 % 16), hexDigit (a12 % 16),
          hexDigit (a13 / 16 % 16), hexDigit (a13 % 16), hexDigit (a14 / 16 % 16),
          hexDigit (a14 % 16), hexDigit (a15 / 16 % 16),
          hexDigit (a15 % 16)].getD 14 ' ') = hexDigit (v / 16 % 16) := rfl
    rw [h14, hv]
    rfl
  · have h19 :
        ([hexDigit (a0 / 16 % 16), hexDigit (a0 % 16), hexDigit (a1 / 16 % 16),
          hexDigit (a1 % 16), hexDigit (a2 / 16 % 16), hexDigit (a2 % 16),
          hexDigit (a3 / 16 % 16), hexDigit (a3 % 16), '-',
          hexDigit (a4 / 16 % 16), hexDigit (a4 % 16), hexDigit (a5 / 16 % 16),
          hexDigit (a5 % 16), '-',
          hexDigit (v / 16 % 16), hexDigit (v % 16), hexDigit (a7 / 16 % 16),
          hexDigit (a7 % 16), '-',
          hexDigit (w / 16 % 16), hexDigit (w % 16), hexDigit (a9 / 16 % 16),
          hexDigit (a9 % 16), '-',
          hexDigit (a10 / 16 % 16), hexDigit (a10 % 16), hexDigit (a11 / 16 % 16),
          hexDigit (a11 % 16), hexDigit (a12 / 16 % 16), hexDigit (a12 % 16),
          hexDigit (a13 / 16 % 16), hexDigit (a13 % 16), hexDigit (a14 / 16 % 16),
          hexDigit (a14 % 16), hexDigit (a15 / 16 % 16),
          hexDigit (a15 % 16)].getD 19 ' ') = hexDigit (w / 16 % 16) := rfl
    rcases hw with h | h | h | h <;> rw [h19, h] <;> rfl

/-- The string produced for a generated version-4 UUID is in canonical
form for every entropy input. -/
theorem uuid_canonical (entropy : List Nat) :
    isCanonicalUUIDv4 (uuidString (uuidV4 entropy)) = true := by
  have hlen : (((entropy ++ List.replicate 16 0).take 16).map (fun b => b % 256)).length = 16 := by
    simp [List.length_take]
  obtain ⟨a0, a1, a2, a3, a4, a5, a6, a7, a8, a9, a10, a11, a12, a13, a14, a15, hL⟩ :=
    exists_sixteen _ hlen
  have huuid : uuidV4 entropy =
      [a0, a1, a2, a3, a4, a5, a6 % 16 + 64, a7, a8 % 64 + 128, a9, a10, a11, a12, a13,
        a14, a15] := by
    simp only [uuidV4]
    rw [hL]
    rfl
  rw [huuid]
  exact canon_explicit a0 a1 a2 a3 a4 a5 (a6 % 16 + 64) a7 (a8 % 64 + 128) a9 a10 a11 a12
    a13 a14 a15 (by omega) (by omega)

/-- C2: `WithRequest` adopts a non-empty `X-Request-ID` header value
verbatim, otherwise stores the canonical string form of a freshly
generated version-4 UUID; in both cases the request-ID key is set in the
returned context, and the returned context is the original chain with new
layers on top (the original is untouched). -/
theorem WithRequest_provisions_request_id (entropy : List Nat) (ctx : Context)
    (req : Request) :
    (getRequestID req ≠ "" →
      (WithRequest entropy ctx req).value requestIDKey =
        some (GoValue.str (getRequestID req))) ∧
    (getRequestID req = "" →
      (WithRequest entropy ctx req).value requestIDKey =
        some (GoValue.str (uuidString (uuidV4 entropy))) ∧
      isCanonicalUUIDv4 (uuidString (uuidV4 entropy)) = true) ∧
    ((WithRequest entropy ctx req).value requestIDKey).isSome = true ∧
    (∃ layers, WithRequest entropy ctx req = layers ++ ctx) := by
  refine ⟨fun hne => ?_, fun hid => ⟨?_, uuid_canonical entropy⟩, ?_, ?_⟩
  · by_cases hcid : getCorrelationID req = "" <;>
      simp [WithRequest, hne, hcid, Context.withValue, Context.value, requestIDKey,
        correlationIDKey]
  · by_cases hcid : getCorrelationID req = "" <;>
      simp [WithRequest, hid, hcid, Context.withValue, Context.value, requestIDKey,
        correlationIDKey]
  · by_cases hid : getRequestID req = "" <;> by_cases hcid : getCorrelationID req = "" <;>
      simp [WithRequest, hid, hcid, Context.withValue, Context.value, requestIDKey,
        correlationIDKey]
  · by_cases hid : getRequestID req = "" <;> by_cases hcid : getCorrelationID req = ""
    · exact ⟨[(requestIDKey, GoValue.str (uuidString (uuidV4 entropy)))],
        by simp [WithRequest, hid, hcid, Context.withValue]⟩
    · exact ⟨[(correlationIDKey, GoValue.str (getCorrelationID req)),
        (requestIDKey, GoValue.str (uuidString (uuidV4 entropy)))],
        by simp [WithRequest, hid, hcid, Context.withValue]⟩
    · exact ⟨[(requestIDKey, GoValue.str (getRequestID req))],
        by simp [WithRequest, hid, hcid, Context.withValue]⟩
    · exact ⟨[(correlationIDKey, GoValue.str (getCorrelationID req)),
        (requestIDKey, GoValue.str (getRequestID req))],
        by simp [WithRequest, hid, hcid, Context.withValue]⟩

/-- Witness for C2: a request carrying `X-Request-ID: abc-123` has that
value adopted verbatim, and a request with no headers gets a canonical
generated UUID stored. -/
theorem WithRequest_provisions_request_id_witness :
    getRequestID ⟨⟨[("X-Request-ID", ["abc-123"])]⟩⟩ ≠ "" ∧
    (WithRequest [] [] ⟨⟨[("X-Request-ID", ["abc-123"])]⟩⟩).value requestIDKey =
      some (GoValue.str "abc-123") ∧
    getRequestID ⟨⟨[]⟩⟩ = "" ∧
    (WithRequest [7] [] ⟨⟨[]⟩⟩).value requestIDKey =
      some (GoValue.str (uuidString (uuidV4 [7]))) := by
  refine ⟨by decide, ?_, rfl, ?_⟩
  · exact (WithRequest_provisions_request_id [] [] ⟨⟨[("X-Request-ID", ["abc-123"])]⟩⟩).1
      (by decide)
  · exact ((WithRequest_provisions_request_id [7] [] ⟨⟨[]⟩⟩).2.1 rfl).1

/-- C3: `WithRequest` stores the `X-Correlation-ID` header value under the
correlation-ID key only when it is non-empty; when the header is absent or
empty the only layer added is the request-ID one, the correlation-ID
lookup in the returned context is exactly the lookup in the original
context, and in particular a key absent before stays absent. -/
theorem WithRequest_correlation_only_when_present (entropy : List Nat) (ctx : Context)
    (req : Request) :
    (getCorrelationID req ≠ "" →
      (WithRequest entropy ctx req).value correlationIDKey =
        some (GoValue.str (getCorrelationID req))) ∧
    (getCorrelationID req = "" →
      (∃ id, WithRequest entropy ctx req = ctx.withValue requestIDKey (GoValue.str id)) ∧
      (WithRequest entropy ctx req).value correlationIDKey = ctx.value correlationIDKey ∧
      (ctx.value correlationIDKey = none →
        (WithRequest entropy ctx req).value correlationIDKey = none)) := by
  refine ⟨fun hne => ?_, fun hcid => ⟨?_, ?_, fun habs => ?_⟩⟩
  · by_cases hid : getRequestID req = "" <;>
      simp [WithRequest, hne, hid, Context.withValue, Context.value, requestIDKey,
        correlationIDKey]
  · by_cases hid : getRequestID req = ""
    · exact ⟨uuidString (uuidV4 entropy), by simp [WithRequest, hid, hcid]⟩
    · exact ⟨getRequestID req, by simp [WithRequest, hid, hcid]⟩
  · by_cases hid : getRequestID req = "" <;>
      simp [WithRequest, hcid, hid, Context.withValue, Context.value, requestIDKey,
        correlationIDKey]
  · have habs' : ctx.value (CtxKey.ck 1) = none := habs
    by_cases hid : getRequestID req = "" <;>
      simp [WithRequest, hcid, hid, habs', Context.withValue, Context.value, requestIDKey,
        correlationIDKey]

/-- Witness for C3: with `X-Correlation-ID: c1` set the value is stored;
with only `X-Request-ID: r1` set the correlation-ID key stays absent in
the returned context. -/
theorem WithRequest_correlation_only_when_present_witness :
    getCorrelationID ⟨⟨[("X-Correlation-ID", ["c1"])]⟩⟩ ≠ "" ∧
    (WithRequest [] [] ⟨⟨[("X-Correlation-ID", ["c1"])]⟩⟩).value correlationIDKey =
      some (GoValue.str "c1") ∧
    getCorrelationID ⟨⟨[("X-Request-ID", ["r1"])]⟩⟩ = "" ∧
    (WithRequest [] [] ⟨⟨[("X-Request-ID", ["r1"])]⟩⟩).value correlationIDKey = none := by
  refine ⟨by decide, ?_, rfl, ?_⟩
  · exact (WithRequest_correlation_only_when_present [] []
      ⟨⟨[("X-Correlation-ID", ["c1"])]⟩⟩).1 (by decide)
  · exact ((WithRequest_correlation_only_when_present [] []
      ⟨⟨[("X-Request-ID", ["r1"])]⟩⟩).2 rfl).2.2 rfl

/-- Every list is an initial segment of itself. -/
theorem charsStart_rfl (p : List Char) : charsStart p p = true := by
  induction p with
  | nil => rfl
  | cons a as ih => simp [charsStart, ih]

/-- An initial segment stays one under extending the larger list on the
right. -/
theorem charsStart_mono (sub : List Char) : ∀ s c, charsStart sub s = true →
    charsStart sub (s ++ c) = true := by
  induction sub with
  | nil => intro s c _; rfl
  | cons a as ih =>
    intro s c h
    cases s with
    | nil => exact absurd h (by simp [charsStart])
    | cons b bs =>
      simp only [charsStart, Bool.and_eq_true] at h
      simp [charsStart, h.1, ih bs c h.2]

/-- An initial segment occurs as a contiguous segment. -/
theorem charsContain_of_charsStart (sub s : List Char) (h : charsStart sub s = true) :
    charsContain sub s = true := by
  cases s with
  | nil => exact h
  | cons a rest => simp [charsContain, h]

/-- A contiguous occurrence survives extending the list on the right. -/
theorem charsContain_extend (sub : List Char) : ∀ s c, charsContain sub s = true →
    charsContain sub (s ++ c) = true := by
  intro s
  induction s with
  | nil =>
    intro c h
    exact charsContain_of_charsStart _ _ (charsStart_mono sub [] c h)
  | cons a s ih =>
    intro c h
    simp only [charsContain, Bool.or_eq_true] at h
    rcases h with h | h
    · exact charsContain_of_charsStart _ _ (charsStart_mono sub (a :: s) c h)
    · simp [charsContain, ih c h]

/-- A contiguous occurrence survives extending the list on the left. -/
theorem charsContain_shift (sub : List Char) : ∀ pre s, charsContain sub s = true →
    charsContain sub (pre ++ s) = true := by
  intro pre
  induction pre with
  | nil => intro s h; exact h
  | cons a pre ih =>
    intro s h
    simp [charsContain, ih s h]

/-- A substring occurrence survives appending on the left. -/
theorem strContains_append_left (a s b : String) (h : strContains s b = true) :
    strContains (a ++ s) b = true := by
  simp only [strContains, String.data_append]
  exact charsContain_shift b.data a.data s.data h

/-- A substring occurrence survives appending on the right. -/
theorem strContains_append_right (s c b : String) (h : strContains s b = true) :
    strContains (s ++ c) b = true := by
  simp only [strContains, String.data_append]
  exact charsContain_extend b.data s.data c.data h

/-- The right component of a concatenation is a substring of it. -/
theorem strContains_self_right (a b : String) : strContains (a ++ b) b = true := by
  simp only [strContains, String.data_append]
  exact charsContain_shift b.data a.data b.data
    (charsContain_of_charsStart _ _ (charsStart_rfl b.data))

/-- C5: for a configuration whose level string is not a recognized level
token (neither verbatim nor lowercased), `New` returns no logger and a
non-null error whose message embeds the quoted offending level value and
starts with the configuration-translation wrapper text; an engine-build
failure on a translatable configuration instead yields an error starting
with the distinct build wrapper text (the two prefixes already differ at
character 8), so the two failure kinds are distinguishable. -/
theorem New_fails_on_bad_level (h : Heap) (build : ZapConfig → Except String Nat)
    (conf : Config)
    (hbad1 : levelOfToken conf.Level = none)
    (hbad2 : levelOfToken (strToLower conf.Level) = none) :
    (∃ msg, (New h build conf).2 = Except.error msg ∧
      strContains msg (goQuote conf.Level) = true ∧
      strStartsWith msg "Can not convert conf to zap conf" = true ∧
      msg.data.getD 8 ' ' = 'c') ∧
    (∀ (h2 : Heap) (conf2 : Config) (h2' : Heap) (cfg2 : ZapConfig) (e2 : String),
      configToZapConfig h2 conf2 = (h2', Except.ok cfg2) →
      build cfg2 = Except.error e2 →
      ∃ msg2, (New h2 build conf2).2 = Except.error msg2 ∧
        strStartsWith msg2 "Can not build loger by cfg" = true ∧
        msg2.data.getD 8 ' ' = 'b') := by
  constructor
  · have hu : unmarshalLevel conf.Level =
        .error ("unrecognized level: " ++ goQuote conf.Level) := by
      simp [unmarshalLevel, hbad1, hbad2]
    have hconv : configToZapConfig h conf =
        (h ++ [h.getMap conf.InitialFields],
          .error ("Can not unmarshal text " ++ goQuote conf.Level ++
            ", expected one of zapcore.Levels: " ++
            ("unrecognized level: " ++ goQuote conf.Level))) := by
      simp [configToZapConfig, hu]
    refine ⟨"Can not convert conf to zap conf;\nconf: " ++ confFmt conf ++ ": " ++
      ("Can not unmarshal text " ++ goQuote conf.Level ++
        ", expected one of zapcore.Levels: " ++
        ("unrecognized level: " ++ goQuote conf.Level)), ?_, ?_, rfl, rfl⟩
    · simp [New, hconv]
    · apply strContains_append_left
      apply strContains_append_right
      apply strContains_append_right
      exact strContains_self_right "Can not unmarshal text " (goQuote conf.Level)
  · intro h2 conf2 h2' cfg2 e2 hok hbuild
    refine ⟨"Can not build loger by cfg: " ++ zapConfFmt cfg2 ++ ": " ++ e2, ?_, rfl, rfl⟩
    simp [New, hok, hbuild]

/-- Witness for C5 at the level string `"notalevel"` with a failing
builder. -/
theorem New_fails_on_bad_level_witness :
    levelOfToken "notalevel" = none ∧
    (∃ msg,
      (New [] (fun _ => Except.error "boom") ⟨"json", ["stdout"], "notalevel", 0⟩).2 =
        Except.error msg ∧
      strContains msg (goQuote "notalevel") = true ∧
      strStartsWith msg "Can not convert conf to zap conf" = true) ∧
    (∃ msg2,
      (New [] (fun _ => Except.error "boom") ⟨"json", ["stdout"], "info", 0⟩).2 =
        Except.error msg2 ∧
      strStartsWith msg2 "Can not build loger by cfg" = true) := by
  have h := New_fails_on_bad_level [] (fun _ => Except.error "boom")
    ⟨"json", ["stdout"], "notalevel", 0⟩ (by decide) (by decide)
  obtain ⟨⟨msg, h1, h2, h3, _⟩, hb⟩ := h
  obtain ⟨msg2, g1, g2, _⟩ := hb [] ⟨"json", ["stdout"], "info", 0⟩ _ _ _ rfl rfl
  exact ⟨rfl, ⟨msg, h1, h2, h3⟩, ⟨msg2, g1, g2⟩⟩

/-- Appending a fresh cell makes its content visible at the old length. -/
theorem Heap.getMap_append_self (h : Heap) (x : FieldMap) :
    (h ++ [x]).getMap h.length = x := by
  simp [Heap.getMap, List.getD_eq_getElem?_getD, List.getElem?_append_right (Nat.le_refl _)]

/-- Updating one heap cell leaves every other reference's content
unchanged. -/
theorem Heap.getMap_set_ne (h : Heap) (i j : Nat) (m : FieldMap) (hij : i ≠ j) :
    Heap.getMap (h.set i m) j = Heap.getMap h j := by
  simp [Heap.getMap, List.getD_eq_getElem?_getD, List.getElem?_set_ne hij]

/-- C9: successful configuration translation allocates a fresh map for the
initial fields — distinct from the caller's map reference — holding a copy
of the caller's entries, keeps the baseline encoder configuration
untouched, overlays encoding and output paths, and a later in-place
insertion into the caller's original map leaves the derived
configuration's map unchanged. -/
theorem configToZapConfig_copies_fields (h : Heap) (conf : Config) (h' : Heap)
    (cfg : ZapConfig)
    (href : conf.InitialFields < h.length)
    (hres : configToZapConfig h conf = (h', Except.ok cfg)) :
    cfg.InitialFields = some h.length ∧
    conf.InitialFields ≠ h.length ∧
    Heap.getMap h' h.length = Heap.getMap h conf.InitialFields ∧
    (∀ k v, Heap.getMap (Heap.mapInsert h' conf.InitialFields k v) h.length =
        Heap.getMap h' h.length) ∧
    cfg.encoderConfig = defaultZapConfig.encoderConfig ∧
    cfg.Encoding = conf.Encoding ∧
    cfg.OutputPaths = conf.OutputPaths := by
  rcases hu : unmarshalLevel conf.Level with e | lv
  · simp [configToZapConfig, hu] at hres
  · simp only [configToZapConfig, hu, Prod.mk.injEq, Except.ok.injEq] at hres
    obtain ⟨rfl, rfl⟩ := hres
    refine ⟨rfl, by omega, Heap.getMap_append_self h _, fun k v => ?_, rfl, rfl, rfl⟩
    exact Heap.getMap_set_ne _ conf.InitialFields h.length _ (by omega)

/-- Witness for C9 at a one-cell heap whose map is copied into the fresh
cell, with a later insertion into the caller's map leaving the copy
unchanged. -/
theorem configToZapConfig_copies_fields_witness :
    (0 : Nat) < ([[("k", GoValue.str "v")]] : Heap).length ∧
    Heap.getMap [[("k", GoValue.str "v")], [("k", GoValue.str "v")]] 1 =
      Heap.getMap [[("k", GoValue.str "v")]] 0 ∧
    Heap.getMap
        (Heap.mapInsert [[("k", GoValue.str "v")], [("k", GoValue.str "v")]] 0 "x"
          (GoValue.int 9)) 1 =
      Heap.getMap [[("k", GoValue.str "v")], [("k", GoValue.str "v")]] 1 := by
  have h := configToZapConfig_copies_fields [[("k", GoValue.str "v")]]
    ⟨"json", ["stdout"], "info", 0⟩ [[("k", GoValue.str "v")], [("k", GoValue.str "v")]]
    { defaultZapConfig with
        Encoding := "json", OutputPaths := ["stdout"], Level := Level.infoLevel,
        InitialFields := some 1 }
    (by decide) rfl
  exact ⟨by decide, h.2.2.1, h.2.2.2.1 "x" (GoValue.int 9)⟩

end MinipkgLog
